import Mathlib

/-!
Shallow embedding of the simulation / evaluation core of `src/game.py`
(a flappy-bird fitness-evaluation environment for a population-based
optimizer).  Pure physics, obstacle bookkeeping and the per-tick body of
`eval_genomes` are translated into executable Lean definitions; the
pygame rendering, the window, and the external NEAT networks are kept
abstract exactly at the boundaries the source uses them:

* the per-genome network `nets[x].activate` becomes a function field
  `Member.net : ℚ × ℚ × ℚ → ℚ` (an opaque decision function);
* the pixel data of the sprite assets (`assets/*.png`, not part of the
  Python source text) enters only through mask parameters
  (`birdMask`, `topMask`, `bottomMask`) and through the integer
  image-size parameters `pipeW` (pipe image width), `pipeImgH`
  (pipe image height) and `imgH` (bird image height per frame);
* `random.randrange(50, 450)` becomes an explicit integer argument
  `draw` to the tick, with `50 ≤ draw < 450` as a hypothesis where the
  range matters.

Machine floats of the Python source are modelled as exact rationals ℚ:
all claims here are about the structure of the arithmetic, not about
floating-point rounding.
-/

namespace Flappy

/-- Floor's position from the top of the window (`FLOOR = 730`). -/
def FLOOR : ℤ := 730

/-- Bird state, from `class Bird` of `src/game.py`.  `img` is the index
into the three-frame animation `IMGS` (the current image); `x` never
changes after construction (the source only ever assigns `self.y`). -/
structure Bird where
  x : ℤ
  y : ℚ
  tilt : ℤ
  tick_count : ℕ
  vel : ℚ
  height : ℚ
  img_count : ℕ
  img : Fin 3
  deriving DecidableEq

/-- `Bird.__init__(x, y)`: tilt 0, tick 0, vel 0, height = y, frame 0. -/
def Bird.init (x : ℤ) (y : ℚ) : Bird :=
  { x := x, y := y, tilt := 0, tick_count := 0, vel := 0, height := y,
    img_count := 0, img := 0 }

/-- `Bird.jump`: vel := -10.5, tick_count := 0, height := y. -/
def Bird.jump (b : Bird) : Bird :=
  { b with vel := -21/2, tick_count := 0, height := b.y }

/-- `Bird.move` (the physics tick): increments `tick_count`, computes
`displacement = vel*t + 1.5*t**2`, clamps it at the terminal velocity 16,
subtracts a further 2 when it is negative (upward), updates `y`, and
updates the tilt exactly as lines 94-104 of the source do. -/
def Bird.move (b : Bird) : Bird :=
  let tc : ℕ := b.tick_count + 1
  let d0 : ℚ := b.vel * (tc : ℚ) + 3/2 * (tc : ℚ) ^ 2
  let d1 : ℚ := if d0 ≥ 16 then 16 else d0
  let d : ℚ := if d1 < 0 then d1 - 2 else d1
  let y : ℚ := b.y + d
  let tilt : ℤ :=
    if d < 0 ∨ y < b.height + 50 then
      if b.tilt < 25 then 25 else b.tilt
    else
      if b.tilt > -90 then b.tilt - 20 else b.tilt
  { b with tick_count := tc, y := y, tilt := tilt }

/-- The state change performed by `Bird.draw` (lines 112-131): the
animation counter advances and the current image is chosen from it;
a steeply downward-tilted bird is pinned to frame 1.  The actual
blitting is rendering and has no state effect beyond this. -/
def Bird.drawUpdate (b : Bird) : Bird :=
  let ic : ℕ := b.img_count + 1
  let p : Fin 3 × ℕ :=
    if ic < 5 then (0, ic)
    else if ic < 10 then (1, ic)
    else if ic < 15 then (2, ic)
    else if ic < 20 then (1, ic)
    else if ic = 21 then (0, 0)
    else (b.img, ic)
  let q : Fin 3 × ℕ := if b.tilt ≤ -80 then (1, 10) else p
  { b with img := q.1, img_count := q.2 }

/-- Python's `round` on our exact rationals: round half to even. -/
def pyRound (q : ℚ) : ℤ :=
  let f : ℤ := ⌊q⌋
  let frac : ℚ := q - f
  if frac < 1/2 then f
  else if frac > 1/2 then f + 1
  else if 2 ∣ f then f else f + 1

/-- Pipe state, from `class Pipe`.  `height` is the random draw = the
lower edge of the top piece (= the top edge of the gap), `top` is the
blit y-coordinate of the flipped top image, `bottom` is the top edge of
the bottom piece (= the bottom edge of the gap), `GAP = 200`. -/
structure Pipe where
  x : ℤ
  height : ℤ
  top : ℤ
  bottom : ℤ
  passed : Bool
  deriving DecidableEq

/-- `Pipe.__init__(x)` followed by `set_height`, with the
`random.randrange(50, 450)` result passed in as `h` and the pipe image
height (an asset property) as `pipeImgH`:
`top = height - PIPE_TOP.get_height()`, `bottom = height + GAP`. -/
def Pipe.create (pipeImgH : ℤ) (x : ℤ) (h : ℤ) : Pipe :=
  { x := x, height := h, top := h - pipeImgH, bottom := h + 200,
    passed := false }

/-- `Pipe.move`: `x -= VEL` with `VEL = 5`. -/
def Pipe.move (p : Pipe) : Pipe :=
  { p with x := p.x - 5 }

/-- `pygame.mask.overlap` on explicit pixel sets: masks are lists of
opaque pixel coordinates; `m1.overlap(m2, off)` is truthy iff some pixel
`(px, py)` of `m1` is also opaque in `m2` shifted by `off`, i.e.
`(px - off.1, py - off.2) ∈ m2`. -/
def maskOverlap (m1 m2 : List (ℤ × ℤ)) (off : ℤ × ℤ) : Bool :=
  m1.any fun q => decide ((q.1 - off.1, q.2 - off.2) ∈ m2)

/-- `Pipe.collide(bird)` (lines 205-229): the bird mask is the mask of
the bird's *current* image (`bird.get_mask()` reads `self.img`); the two
pipe masks come from the pipe sprite.  Offsets are
`(self.x - bird.x, self.top - round(bird.y))` and
`(self.x - bird.x, self.bottom - round(bird.y))`; collision iff either
overlap is non-empty.  The pixel data of the sprites is an asset
property, passed in as `birdMask`/`topMask`/`bottomMask`. -/
def Pipe.collide (birdMask : Fin 3 → List (ℤ × ℤ))
    (topMask bottomMask : List (ℤ × ℤ)) (p : Pipe) (b : Bird) : Bool :=
  let bm := birdMask b.img
  let topOff : ℤ × ℤ := (p.x - b.x, p.top - pyRound b.y)
  let bottomOff : ℤ × ℤ := (p.x - b.x, p.bottom - pyRound b.y)
  maskOverlap bm topMask topOff || maskOverlap bm bottomMask bottomOff

/-- One cohort member: the bird, the genome's fitness accumulator, and
the genome's network as an opaque decision function (the source keeps
these in the parallel lists `birds`, `ge`, `nets`, always popped at the
same index, so one record list is an equivalent model; a popped member's
record survives in the `dead` list because the Python genome object and
its fitness persist outside the episode lists). -/
structure Member where
  bird : Bird
  fitness : ℚ
  net : ℚ × ℚ × ℚ → ℚ

/-- The fitness penalty applied at a death site (`ge[x].fitness -= 1`). -/
def Member.penalize (m : Member) : Member :=
  { m with fitness := m.fitness - 1 }

/-- The closest-pipe selection of lines 365-370: index 0 by default;
index 1 iff there is more than one pipe and the first bird is past the
right edge of the first pipe (`birds[0].x > pipes[0].x + pipe width`).
`none` when the pipe list is empty (the source would then crash on
`pipes[pipe_ind]`). -/
def targetPipe (pipeW bx : ℤ) : List Pipe → Option Pipe
  | [] => none
  | [p] => some p
  | p0 :: p1 :: _ => some (if bx > p0.x + pipeW then p1 else p0)

/-- The per-member body of the decision loop (lines 375-386): the bird
moves, the member earns the survival reward 0.1, the network is fed
`(bird.y, |bird.y - pipe.height|, |bird.y - pipe.bottom|)` for the
target pipe, and the bird jumps iff the output is strictly above 0.5. -/
def decisionStep (tp : Pipe) (m : Member) : Member :=
  let b := m.bird.move
  let out := m.net (b.y, |b.y - (tp.height : ℚ)|, |b.y - (tp.bottom : ℚ)|)
  let b2 := if out > 1/2 then b.jump else b
  { m with bird := b2, fitness := m.fitness + 1/10 }

/-- Result of one pipe's scan over the member list. -/
structure ScanOut where
  members : List Member
  dead : List Member
  passed : Bool
  addPipe : Bool

/-- The inner `for x, bird in enumerate(birds)` loop of lines 395-408
for one (already moved) pipe `p`.  The source pops `birds[x]`, `nets[x]`
and `ge[x]` while iterating; the CPython list iterator then skips the
element that slid into the popped slot, so after a removal the next
member examined is the one *after* the removed member's successor, and
the successor is kept unexamined.  The pass check
(`if not pipe.passed and pipe.x < bird.x`) runs for every examined
member, including one that was just popped for colliding (the loop
variable still holds it), and it reads/sets the threaded `passed` and
`add_pipe` flags. -/
def pipeBirdScan (collide : Pipe → Bird → Bool) (p : Pipe) :
    List Member → Bool → Bool → ScanOut
  | [], passed, add => ⟨[], [], passed, add⟩
  | m :: rest, passed, add =>
    let cross : Bool := !passed && decide (p.x < m.bird.x)
    let passed1 := passed || cross
    let add1 := add || cross
    if collide p m.bird then
      match rest with
      | [] => ⟨[], [m.penalize], passed1, add1⟩
      | b :: rest2 =>
        let r := pipeBirdScan collide p rest2 passed1 add1
        ⟨b :: r.members, m.penalize :: r.dead, r.passed, r.addPipe⟩
    else
      let r := pipeBirdScan collide p rest passed1 add1
      ⟨m :: r.members, r.dead, r.passed, r.addPipe⟩

/-- Result of the whole pipe loop (lines 389-412): the processed pipes
each tagged with their `rem` membership (marked for removal iff, after
moving, `pipe.x + pipe width < 0`), the surviving members, the members
popped for colliding, and the `add_pipe` flag. -/
structure PhaseOut where
  pipes : List (Pipe × Bool)
  members : List Member
  dead : List Member
  addPipe : Bool

/-- The `for pipe in pipes` loop of lines 389-412: each pipe moves, its
member scan runs (threading that pipe's own `passed` flag and the shared
`add_pipe` accumulator), and the pipe is marked for removal when fully
off screen. -/
def pipesLoop (collide : Pipe → Bird → Bool) (pipeW : ℤ) :
    List Pipe → List Member → Bool → PhaseOut
  | [], ms, add => ⟨[], ms, [], add⟩
  | p :: rest, ms, add =>
    let pm := p.move
    let r := pipeBirdScan collide pm ms pm.passed add
    let p2 : Pipe := { pm with passed := r.passed }
    let remFlag : Bool := decide (p2.x + pipeW < 0)
    let rr := pipesLoop collide pipeW rest r.members r.addPipe
    ⟨(p2, remFlag) :: rr.pipes, rr.members, r.dead ++ rr.dead, rr.addPipe⟩

/-- The pass reward of lines 418-420: `for genome in ge: genome.fitness += 5`. -/
def passBonus (ms : List Member) : List Member :=
  ms.map fun m => { m with fitness := m.fitness + 5 }

/-- Out-of-bounds test of line 430:
`bird.y + bird.img.get_height() >= FLOOR or bird.y < 0`.  The height of
the bird's current image is the asset parameter `imgH`. -/
def outOfBounds (imgH : Fin 3 → ℤ) (b : Bird) : Bool :=
  decide (b.y + (imgH b.img : ℚ) ≥ (FLOOR : ℚ)) || decide (b.y < 0)

/-- The floor/ceiling scan of lines 428-434, again an enumerate-with-pop
loop with the same skip-after-removal iterator behaviour as
`pipeBirdScan`: returns (survivors, popped members with the -1 penalty
applied). -/
def floorScan (imgH : Fin 3 → ℤ) : List Member → List Member × List Member
  | [] => ([], [])
  | m :: rest =>
    if outOfBounds imgH m.bird then
      match rest with
      | [] => ([], [m.penalize])
      | b :: rest2 =>
        let r := floorScan imgH rest2
        (b :: r.1, m.penalize :: r.2)
    else
      let r := floorScan imgH rest
      (m :: r.1, r.2)

/-- Full evaluation-loop state: the live cohort, the active pipes, the
score, and the members removed so far (their genome objects and final
fitness persist outside the loop's lists). -/
structure GameState where
  members : List Member
  pipes : List Pipe
  score : ℕ
  dead : List Member

/-- One iteration of the `while run` game loop of `eval_genomes`
(lines 355-437), with rendering, the clock and the event pump dropped:

1. lines 365-373: if the cohort is empty the loop breaks (`none`);
   otherwise the target pipe is selected by `targetPipe` (an empty pipe
   list would crash the source's `pipes[pipe_ind]`, also `none` here);
2. lines 375-386: every member runs `decisionStep`;
3. lines 389-412: `pipesLoop` (move, collide/pop, pass detection,
   off-screen marking);
4. lines 414-422: if `add_pipe`, the score increments, every surviving
   genome gets +5, and one fresh `Pipe(600)` is appended (its random
   height draw is the `draw` argument);
5. lines 424-426: the marked pipes are removed (the source appends the
   new pipe before removing, but the new pipe is never in `rem`, so the
   resulting list is the same);
6. lines 428-434: the floor/ceiling scan;
7. line 437: `draw_window` runs `bird.draw` on every surviving bird,
   which advances the animation state (`Bird.drawUpdate`). -/
def tick (collide : Pipe → Bird → Bool) (imgH : Fin 3 → ℤ)
    (pipeW pipeImgH : ℤ) (draw : ℤ) (s : GameState) : Option GameState :=
  match s.members, s.pipes with
  | [], _ => none
  | _ :: _, [] => none
  | m0 :: _, tp0 :: _ =>
    let tp := (targetPipe pipeW m0.bird.x s.pipes).getD tp0
    let ms1 := s.members.map (decisionStep tp)
    let ph := pipesLoop collide pipeW s.pipes ms1 false
    let ms2 := if ph.addPipe then passBonus ph.members else ph.members
    let score2 := if ph.addPipe then s.score + 1 else s.score
    let pipes1 := (ph.pipes.filter fun pb => !pb.2).map Prod.fst
    let pipes2 := if ph.addPipe
      then pipes1 ++ [Pipe.create pipeImgH 600 draw] else pipes1
    let fl := floorScan imgH ms2
    let msF := fl.1.map fun m => { m with bird := m.bird.drawUpdate }
    some { members := msF, pipes := pipes2, score := score2,
           dead := s.dead ++ ph.dead ++ fl.2 }

/-! Lemmas about the member scans. -/

/-- The survivors of one pipe's scan form a sublist of the scanned
members, each kept record unchanged. -/
theorem pipeBirdScan_members_sublist (c : Pipe → Bird → Bool) (p : Pipe)
    (ms : List Member) (passed add : Bool) :
    ((pipeBirdScan c p ms passed add).members).Sublist ms := by
  induction ms, passed, add using pipeBirdScan.induct c p with
  | case1 passed add => simp [pipeBirdScan]
  | case2 m passed add h => simp [pipeBirdScan, h]
  | case3 m passed add cross passed1 add1 h b rest2 ih =>
      simp only [pipeBirdScan, h, if_true]
      exact List.Sublist.cons m (List.Sublist.cons₂ b ih)
  | case4 m rest passed add cross passed1 add1 h ih =>
      rw [pipeBirdScan.eq_def]
      cases rest with
      | nil => simp [h, pipeBirdScan]
      | cons b rest2 =>
          simp only [h, if_false, Bool.false_eq_true]
          exact List.Sublist.cons₂ m ih

/-- Every member the pipe scan kills is an original member with the
collision penalty applied. -/
theorem pipeBirdScan_dead_spec (c : Pipe → Bird → Bool) (p : Pipe)
    (ms : List Member) (passed add : Bool) :
    ∀ d ∈ (pipeBirdScan c p ms passed add).dead,
      ∃ m ∈ ms, d = m.penalize := by
  induction ms, passed, add using pipeBirdScan.induct c p with
  | case1 passed add => simp [pipeBirdScan]
  | case2 m passed add h => simp [pipeBirdScan, h]
  | case3 m passed add cross passed1 add1 h b rest2 ih =>
      simp only [pipeBirdScan, h, if_true]
      intro d hd
      rcases List.mem_cons.mp hd with h1 | h2
      · exact ⟨m, by simp, h1⟩
      · rcases ih d h2 with ⟨m', hm', he⟩
        exact ⟨m', by simp [hm'], he⟩
  | case4 m rest passed add cross passed1 add1 h ih =>
      rw [pipeBirdScan.eq_def]
      cases rest with
      | nil => simp [h, pipeBirdScan]
      | cons b rest2 =>
          simp only [h, if_false, Bool.false_eq_true]
          intro d hd
          rcases ih d hd with ⟨m', hm', he⟩
          exact ⟨m', by simp [hm'], he⟩

/-- The `passed` and `add_pipe` flags after one pipe's scan, when every
member has the same horizontal position `bx` (in the source every bird
is constructed at x = 230 and never moves horizontally).  The pipe ends
up marked passed iff it was already passed or the member list is
non-empty and `p.x < bx` (the head member is always examined, even when
it is popped for colliding, because the Python loop variable still holds
it); the scan raises `add_pipe` exactly when the mark newly flips. -/
theorem pipeBirdScan_flags (c : Pipe → Bird → Bool) (p : Pipe) (bx : ℤ) :
    ∀ (ms : List Member) (passed add : Bool),
      (∀ m ∈ ms, m.bird.x = bx) →
      (pipeBirdScan c p ms passed add).passed
          = (passed || (!ms.isEmpty && decide (p.x < bx)))
      ∧ (pipeBirdScan c p ms passed add).addPipe
          = (add || (!passed && (!ms.isEmpty && decide (p.x < bx))))
  | [], passed, add, _ => by simp [pipeBirdScan]
  | m :: rest, passed, add, hx => by
      have hm : m.bird.x = bx := hx m (by simp)
      have hx' : ∀ m' ∈ rest, m'.bird.x = bx := fun m' h' =>
        hx m' (by simp [h'])
      rw [pipeBirdScan.eq_def]
      by_cases h : c p m.bird = true
      · cases rest with
        | nil =>
            simp only [h, if_true, hm]
            cases hd : decide (p.x < bx) <;> cases passed <;> simp [hd]
        | cons b rest2 =>
            have ih := pipeBirdScan_flags c p bx rest2
              (passed || (!passed && decide (p.x < m.bird.x)))
              (add || (!passed && decide (p.x < m.bird.x)))
              (fun m' h' => hx' m' (by simp [h']))
            simp only [h, if_true]
            rw [ih.1, ih.2, hm]
            cases hd : decide (p.x < bx) <;> cases passed <;>
              cases hrest : rest2.isEmpty <;> simp [hd, hrest]
      · have ih := pipeBirdScan_flags c p bx rest
          (passed || (!passed && decide (p.x < m.bird.x)))
          (add || (!passed && decide (p.x < m.bird.x))) hx'
        cases rest with
        | nil =>
            simp only [h, if_false, Bool.false_eq_true, hm]
            simp only [pipeBirdScan]
            cases hd : decide (p.x < bx) <;> cases passed <;> simp [hd]
        | cons b rest2 =>
            simp only [h, if_false, Bool.false_eq_true]
            rw [ih.1, ih.2, hm]
            cases hd : decide (p.x < bx) <;> cases passed <;>
              cases hrest : (b :: rest2).isEmpty <;> simp [hd, hrest]

/-- With no collision anywhere against this pipe, the scan removes
nobody. -/
theorem pipeBirdScan_nocollide (c : Pipe → Bird → Bool) (p : Pipe)
    (hc : ∀ b, c p b = false) :
    ∀ (ms : List Member) (passed add : Bool),
      (pipeBirdScan c p ms passed add).members = ms
      ∧ (pipeBirdScan c p ms passed add).dead = []
  | [], _, _ => by simp [pipeBirdScan]
  | m :: rest, passed, add => by
      have ih := pipeBirdScan_nocollide c p hc rest
        (passed || (!passed && decide (p.x < m.bird.x)))
        (add || (!passed && decide (p.x < m.bird.x)))
      have h : (c p m.bird = true) = False := by simp [hc m.bird]
      rw [pipeBirdScan.eq_def]
      cases rest with
      | nil => simp [h, pipeBirdScan]
      | cons b rest2 =>
          simp only [h, if_false]
          exact ⟨by rw [ih.1], ih.2⟩

/-- The survivors of the floor/ceiling scan form a sublist of the
scanned members, each kept record unchanged. -/
theorem floorScan_members_sublist (imgH : Fin 3 → ℤ) (ms : List Member) :
    ((floorScan imgH ms).1).Sublist ms := by
  induction ms using floorScan.induct imgH with
  | case1 => simp [floorScan]
  | case2 m h => simp [floorScan, h]
  | case3 m h b rest2 ih =>
      simp only [floorScan, h, if_true]
      exact List.Sublist.cons m (List.Sublist.cons₂ b ih)
  | case4 m rest2 h ih =>
      rw [floorScan.eq_def]
      cases rest2 with
      | nil => simp [h, floorScan]
      | cons b rest3 =>
          simp only [h, if_false, Bool.false_eq_true]
          exact List.Sublist.cons₂ m ih

/-- Every member the floor scan kills is an original member with the
out-of-bounds penalty applied. -/
theorem floorScan_dead_spec (imgH : Fin 3 → ℤ) (ms : List Member) :
    ∀ d ∈ (floorScan imgH ms).2, ∃ m ∈ ms, d = m.penalize := by
  induction ms using floorScan.induct imgH with
  | case1 => simp [floorScan]
  | case2 m h => simp [floorScan, h]
  | case3 m h b rest2 ih =>
      simp only [floorScan, h, if_true]
      intro d hd
      rcases List.mem_cons.mp hd with h1 | h2
      · exact ⟨m, by simp, h1⟩
      · rcases ih d h2 with ⟨m', hm', he⟩
        exact ⟨m', by simp [hm'], he⟩
  | case4 m rest2 h ih =>
      rw [floorScan.eq_def]
      cases rest2 with
      | nil => simp [h, floorScan]
      | cons b rest3 =>
          simp only [h, if_false, Bool.false_eq_true]
          intro d hd
          rcases ih d hd with ⟨m', hm', he⟩
          exact ⟨m', by simp [hm'], he⟩

/-! Lemmas about the whole pipe loop. -/

/-- The pipe loop only ever removes members: its survivors form a
sublist of its input members, each kept record unchanged. -/
theorem pipesLoop_members_sublist (c : Pipe → Bird → Bool) (pipeW : ℤ) :
    ∀ (pipes : List Pipe) (ms : List Member) (add : Bool),
      ((pipesLoop c pipeW pipes ms add).members).Sublist ms
  | [], ms, add => by simp [pipesLoop]
  | p :: rest, ms, add => by
      simp only [pipesLoop]
      exact (pipesLoop_members_sublist c pipeW rest _ _).trans
        (pipeBirdScan_members_sublist c p.move ms p.move.passed add)

/-- Every member the pipe loop kills is an original member with the
collision penalty applied (in particular, no pass reward is in it). -/
theorem pipesLoop_dead_spec (c : Pipe → Bird → Bool) (pipeW : ℤ) :
    ∀ (pipes : List Pipe) (ms : List Member) (add : Bool),
      ∀ d ∈ (pipesLoop c pipeW pipes ms add).dead,
        ∃ m ∈ ms, d = m.penalize
  | [], ms, add => by simp [pipesLoop]
  | p :: rest, ms, add => by
      simp only [pipesLoop]
      intro d hd
      rcases List.mem_append.mp hd with h1 | h2
      · exact pipeBirdScan_dead_spec c p.move ms p.move.passed add d h1
      · rcases pipesLoop_dead_spec c pipeW rest _ _ d h2 with ⟨m', hm', he⟩
        exact ⟨m',
          (pipeBirdScan_members_sublist c p.move ms p.move.passed
            add).subset hm', he⟩

/-- The `add_pipe` flag is raised only if it was already raised or some
pipe in the list was not yet marked passed and, after this tick's move,
sits strictly left of the members' shared horizontal position. -/
theorem pipesLoop_addPipe_imp (c : Pipe → Bird → Bool) (pipeW bx : ℤ) :
    ∀ (pipes : List Pipe) (ms : List Member) (add : Bool),
      (∀ m ∈ ms, m.bird.x = bx) →
      (pipesLoop c pipeW pipes ms add).addPipe = true →
      add = true ∨ ∃ p ∈ pipes, p.passed = false ∧ p.x - 5 < bx
  | [], ms, add, _, h => by
      simp only [pipesLoop] at h
      exact Or.inl h
  | p :: rest, ms, add, hx, h => by
      simp only [pipesLoop] at h
      have hx' : ∀ m ∈ (pipeBirdScan c p.move ms p.move.passed add).members,
          m.bird.x = bx := fun m hm =>
        hx m ((pipeBirdScan_members_sublist c p.move ms
          p.move.passed add).subset hm)
      rcases pipesLoop_addPipe_imp c pipeW bx rest _ _ hx' h with h1 | h2
      · have hf := (pipeBirdScan_flags c p.move bx ms p.move.passed add hx).2
        rw [h1] at hf
        have : p.move.passed = false ∧ decide (p.move.x < bx) = true ∧
            add = false ∨ add = true := by
          cases hp : p.move.passed <;> cases ha : add <;>
            cases hd : decide (p.move.x < bx) <;>
            simp [hp, ha, hd] at hf ⊢
        rcases this with ⟨hp, hd, _⟩ | ha
        · refine Or.inr ⟨p, by simp, ?_, ?_⟩
          · simpa [Pipe.move] using hp
          · simpa [Pipe.move] using of_decide_eq_true hd
        · exact Or.inl ha
      · rcases h2 with ⟨p', hp', hpr⟩
        exact Or.inr ⟨p', by simp [hp'], hpr⟩

/-- Full characterisation of the pipe loop on a tick with no collisions
and a non-empty cohort whose members share the horizontal position `bx`:
every pipe moves 5 left; a pipe's `passed` flag is set exactly when it
was already set or the moved pipe sits strictly left of `bx`; a pipe is
marked for removal exactly when it is fully off screen; no member is
touched; `add_pipe` is raised exactly when some pipe's flag newly
flips. -/
theorem pipesLoop_nocollide (c : Pipe → Bird → Bool) (pipeW bx : ℤ)
    (hc : ∀ q b, c q b = false) :
    ∀ (pipes : List Pipe) (ms : List Member) (add : Bool),
      ms ≠ [] → (∀ m ∈ ms, m.bird.x = bx) →
      pipesLoop c pipeW pipes ms add =
        ⟨pipes.map (fun p =>
            ({ x := p.x - 5, height := p.height, top := p.top,
               bottom := p.bottom,
               passed := p.passed || decide (p.x - 5 < bx) },
             decide (p.x - 5 + pipeW < 0))),
         ms, [],
         add || pipes.any (fun p => !p.passed && decide (p.x - 5 < bx))⟩
  | [], ms, add, _, _ => by simp [pipesLoop]
  | p :: rest, ms, add, hms, hx => by
      have hscan := pipeBirdScan_nocollide c p.move (hc p.move) ms
        p.move.passed add
      have hflags := pipeBirdScan_flags c p.move bx ms p.move.passed add hx
      have hne : ms.isEmpty = false := by
        cases ms with
        | nil => exact absurd rfl hms
        | cons a l => rfl
      have ih := pipesLoop_nocollide c pipeW bx hc rest
        (pipeBirdScan c p.move ms p.move.passed add).members
        (pipeBirdScan c p.move ms p.move.passed add).addPipe
        (by rw [hscan.1]; exact hms)
        (by rw [hscan.1]; exact hx)
      simp only [pipesLoop]
      rw [ih, hscan.1, hscan.2, hflags.1, hflags.2, hne]
      simp only [List.map_cons, List.any_cons, Pipe.move, PhaseOut.mk.injEq,
        List.nil_append]
      refine ⟨by simp, trivial, trivial, ?_⟩
      cases add <;> cases hp : p.passed <;>
        cases hd : decide (p.x - 5 < bx) <;>
        simp [hp, hd, Bool.or_assoc]

/-! Claim theorems. -/

/-- C6: for every bird state (hence for every tick count since the last
jump, with or without intervening jumps), the vertical displacement the
physics tick applies to `y` never exceeds the terminal-velocity constant
16: the raw displacement `vel*t + 1.5*t^2` is clamped at 16 before it is
added, and the extra downward bias only applies to negative (upward)
displacements. -/
theorem claim_C6_terminal_velocity (b : Bird) : (b.move).y ≤ b.y + 16 := by
  simp only [Bird.move]
  split_ifs <;> linarith

/-- A pipe's movement never touches its vertical geometry. -/
theorem pipeMove_iterate_fields (p : Pipe) (n : ℕ) :
    ((Pipe.move)^[n] p).height = p.height
    ∧ ((Pipe.move)^[n] p).bottom = p.bottom := by
  induction n with
  | zero => simp
  | succ k ih =>
      rw [Function.iterate_succ_apply']
      simpa [Pipe.move] using ih

/-- C2: for every generated pipe (gap draw `h` from
`random.randrange(50, 450)`, so `50 ≤ h < 450`), at creation and after
any number of moves, the bottom gap edge minus the top gap edge is
exactly `GAP = 200`, and both edges lie inside the spawn band [50, 450)
extended by at most the gap size (`height ∈ [50, 450)`,
`bottom ∈ [250, 650) ⊆ [50, 650)`).  In the source's field names the
gap's top edge is `Pipe.height` and its bottom edge `Pipe.bottom` (they
are exactly the two quantities the observation vector reads); `Pipe.top`
is only the blit coordinate of the flipped top image. -/
theorem claim_C2_gap_invariant (pipeImgH x h : ℤ)
    (h1 : 50 ≤ h) (h2 : h < 450) (n : ℕ) :
    ((Pipe.move)^[n] (Pipe.create pipeImgH x h)).bottom
        - ((Pipe.move)^[n] (Pipe.create pipeImgH x h)).height = 200
    ∧ 50 ≤ ((Pipe.move)^[n] (Pipe.create pipeImgH x h)).height
    ∧ ((Pipe.move)^[n] (Pipe.create pipeImgH x h)).height < 450
    ∧ 50 ≤ ((Pipe.move)^[n] (Pipe.create pipeImgH x h)).bottom
    ∧ ((Pipe.move)^[n] (Pipe.create pipeImgH x h)).bottom < 650 := by
  rcases pipeMove_iterate_fields (Pipe.create pipeImgH x h) n with ⟨hh, hb⟩
  rw [hh, hb]
  simp only [Pipe.create]
  omega

/-- C2 witness: a concrete pipe (image height 640, spawn x 600, draw
100), after three moves. -/
theorem claim_C2_witness :
    ((Pipe.move)^[3] (Pipe.create 640 600 100)).bottom
        - ((Pipe.move)^[3] (Pipe.create 640 600 100)).height = 200
    ∧ 50 ≤ ((Pipe.move)^[3] (Pipe.create 640 600 100)).height
    ∧ ((Pipe.move)^[3] (Pipe.create 640 600 100)).height < 450
    ∧ 50 ≤ ((Pipe.move)^[3] (Pipe.create 640 600 100)).bottom
    ∧ ((Pipe.move)^[3] (Pipe.create 640 600 100)).bottom < 650 :=
  claim_C2_gap_invariant 640 600 100 (by norm_num) (by norm_num) 3

/-- C3 counterexample: a network whose output is exactly the threshold
0.5.  The output reaches 0.5 (so the claim's "jump iff output ≥ 0.5"
demands a jump), but the decision step leaves the bird un-jumped: its
`tick_count` is 1 (a plain move), while a jump resets `tick_count` to 0.
The source's test on line 385 is the strict `output[0] > 0.5`. -/
theorem claim_C3_counterexample :
    (Member.net ⟨Bird.init 230 350, 0, fun _ => 1/2⟩)
        ((Bird.init 230 350).move.y,
         |(Bird.init 230 350).move.y - ((Pipe.create 640 600 100).height : ℚ)|,
         |(Bird.init 230 350).move.y - ((Pipe.create 640 600 100).bottom : ℚ)|)
      ≥ 1/2
    ∧ (decisionStep (Pipe.create 640 600 100)
        ⟨Bird.init 230 350, 0, fun _ => 1/2⟩).bird.tick_count = 1
    ∧ ((Bird.init 230 350).move.jump).tick_count = 0 := by
  refine ⟨le_refl _, ?_, rfl⟩
  norm_num [decisionStep, Bird.init, Bird.move]

/-- C3 as amended: the decision step calls `jump` iff the network output
is strictly greater than 0.5.  (`tick_count = 0` is an exact marker of
the jump having been called: `jump` resets it to 0 and `move` has just
set it to a successor.) -/
theorem claim_C3_jump_threshold (tp : Pipe) (m : Member) :
    (decisionStep tp m).bird.tick_count = 0 ↔
      m.net (m.bird.move.y, |m.bird.move.y - (tp.height : ℚ)|,
        |m.bird.move.y - (tp.bottom : ℚ)|) > 1/2 := by
  have hsplit : (decisionStep tp m).bird
      = (if m.net (m.bird.move.y, |m.bird.move.y - (tp.height : ℚ)|,
          |m.bird.move.y - (tp.bottom : ℚ)|) > 1/2
         then m.bird.move.jump else m.bird.move) := rfl
  rw [hsplit]
  by_cases h : m.net (m.bird.move.y, |m.bird.move.y - (tp.height : ℚ)|,
      |m.bird.move.y - (tp.bottom : ℚ)|) > 1/2
  · rw [if_pos h]
    exact iff_of_true rfl h
  · rw [if_neg h]
    exact iff_of_false (by simp [Bird.move]) h

/-- C1: the failing input for the target-obstacle selection.  With pipe
width 104, the first pipe at x = 200 already marked `passed = true`
(its x fell behind the birds' x = 230 on an earlier tick, which is
exactly when line 407 sets the flag), and a second pipe present, the
claim demands the second pipe as target; the code of lines 365-370
instead tests `birds[0].x > pipes[0].x + width` (230 > 304 is false) and
keeps targeting the first, already-passed pipe. -/
theorem claim_C1_target_selection :
    targetPipe 104 230
        [{ x := 200, height := 100, top := -540, bottom := 300,
           passed := true },
         Pipe.create 640 600 150]
      = some { x := 200, height := 100, top := -540, bottom := 300,
               passed := true }
    ∧ (200 : ℤ) < 230
    ∧ ¬((230 : ℤ) > 200 + 104) := by
  refine ⟨?_, by norm_num, by norm_num⟩
  norm_num [targetPipe]

/-- C9 counterexample: a bird whose y plus image height lands exactly on
the floor line (682 + 48 = 730 = FLOOR).  The source's check on line 430
uses `>=` and reports out of bounds, while the claim's "exceeds the
floor line" (strict) does not hold. -/
theorem claim_C9_counterexample :
    outOfBounds (fun _ => 48) (Bird.init 230 682) = true
    ∧ ¬((682 : ℚ) + 48 > 730)
    ∧ ¬((682 : ℚ) < 0) := by
  refine ⟨?_, by norm_num, by norm_num⟩
  norm_num [outOfBounds, Bird.init, FLOOR]

/-- C9 as amended: the out-of-bounds check is a pure boolean function of
the bird state returning true exactly when the vertical position plus
the current image's height reaches or exceeds the floor line, or the
vertical position is negative; and the floor scan converts a true result
into the death transition with the fixed -1 penalty (the examined member
is removed from the cohort and appended, penalized, to the dead list). -/
theorem claim_C9_out_of_bounds (imgH : Fin 3 → ℤ) :
    (∀ b : Bird, outOfBounds imgH b = true ↔
      ((FLOOR : ℚ) ≤ b.y + (imgH b.img : ℚ) ∨ b.y < 0))
    ∧ ∀ (m : Member) (rest : List Member),
        outOfBounds imgH m.bird = true →
        ∃ kept deadTail, floorScan imgH (m :: rest) =
          (kept, m.penalize :: deadTail) := by
  constructor
  · intro b
    simp [outOfBounds, or_comm]
  · intro m rest ho
    rw [floorScan.eq_def]
    cases rest with
    | nil => exact ⟨[], [], by simp [ho]⟩
    | cons b rest2 =>
        exact ⟨b :: (floorScan imgH rest2).1, (floorScan imgH rest2).2,
          by simp [ho]⟩

/-- C9 witness: a bird at y = 900 (below the floor) is removed by the
floor scan with the penalty applied. -/
theorem claim_C9_witness :
    ∃ kept deadTail,
      floorScan (fun _ => 48) [⟨Bird.init 230 900, 0, fun _ => 0⟩] =
        (kept, (Member.penalize ⟨Bird.init 230 900, 0, fun _ => 0⟩)
          :: deadTail) :=
  (claim_C9_out_of_bounds (fun _ => 48)).2 ⟨Bird.init 230 900, 0, fun _ => 0⟩
    [] (by norm_num [outOfBounds, Bird.init, FLOOR])

/-- Modelled from the spec: the pixel masks of the three bird animation
frames.  The pixel data lives in `assets/bird1.png` ... `assets/bird3.png`
and is not part of the Python source; the spec's section 4.1 states the
silhouette "varies by current visual frame", so a minimal concrete
family with a different shape per frame stands in for it. -/
def birdMaskSpec : Fin 3 → List (ℤ × ℤ) := fun i => [(0, (i.val : ℤ))]

/-- A bird agreeing with `Bird.init 230 0` on the whole physics state
(x, y, velocity, tick counter, jump height) and differing only in the
visual state: tilt, animation counter and current image. -/
def birdVisualVariant : Bird :=
  { x := 230, y := 0, tilt := -90, tick_count := 0, vel := 0, height := 0,
    img_count := 7, img := 2 }

/-- C7 counterexample: two birds with identical physics state (same x,
y, velocity, tick counter and jump height) but different visual state
(tilt, animation counter and current image).  Because line 211 takes the
mask from the bird's *current image*, the collision test differs:
frame 0 overlaps the top pipe piece here, frame 2 does not. -/
theorem claim_C7_counterexample :
    ((Bird.init 230 0).x = birdVisualVariant.x
      ∧ (Bird.init 230 0).y = birdVisualVariant.y
      ∧ (Bird.init 230 0).vel = birdVisualVariant.vel
      ∧ (Bird.init 230 0).tick_count = birdVisualVariant.tick_count
      ∧ (Bird.init 230 0).height = birdVisualVariant.height)
    ∧ Pipe.collide birdMaskSpec [(0, 0)] [(0, 0)]
        { x := 230, height := 0, top := 0, bottom := 1000, passed := false }
        (Bird.init 230 0) = true
    ∧ Pipe.collide birdMaskSpec [(0, 0)] [(0, 0)]
        { x := 230, height := 0, top := 0, bottom := 1000, passed := false }
        birdVisualVariant = false := by
  refine ⟨⟨rfl, rfl, rfl, rfl, rfl⟩, ?_, ?_⟩ <;>
    norm_num [Pipe.collide, maskOverlap, birdMaskSpec, Bird.init,
      birdVisualVariant, pyRound]

/-- C7 as amended: the collision test is independent of the tilt and of
the animation counter for a fixed current image — it reads only the
bird's x, y and current image (whose mask it uses).  Agents differing
also in the current image may collide differently, as the
counterexample shows. -/
theorem claim_C7_visual_independence (birdMask : Fin 3 → List (ℤ × ℤ))
    (topMask bottomMask : List (ℤ × ℤ)) (p : Pipe) (b : Bird)
    (t : ℤ) (ic : ℕ) :
    Pipe.collide birdMask topMask bottomMask p
        { b with tilt := t, img_count := ic }
      = Pipe.collide birdMask topMask bottomMask p b := rfl

/-- C10 counterexample: three members at consecutive indices, all out of
bounds (y = 750, so y + 48 ≥ 730).  The members at indices 1 and 2
(fitness 200 and 300) are a consecutive pair that both satisfy the death
condition, yet the scan keeps the *first* of the pair (fitness 200,
skipped because the member at index 0 was removed just before it) and
removes the *second* — the reverse of the claim's "only the first is
examined and removed ... the agent immediately after it stays". -/
theorem claim_C10_counterexample :
    outOfBounds (fun _ => 48) (Bird.init 230 750) = true
    ∧ ((floorScan (fun _ => 48)
        [⟨Bird.init 230 750, 100, fun _ => 0⟩,
         ⟨Bird.init 230 750, 200, fun _ => 0⟩,
         ⟨Bird.init 230 750, 300, fun _ => 0⟩]).1).map Member.fitness
      = [200]
    ∧ ((floorScan (fun _ => 48)
        [⟨Bird.init 230 750, 100, fun _ => 0⟩,
         ⟨Bird.init 230 750, 200, fun _ => 0⟩,
         ⟨Bird.init 230 750, 300, fun _ => 0⟩]).2).map Member.fitness
      = [99, 299] := by
  refine ⟨?_, ?_, ?_⟩ <;>
    norm_num [floorScan, outOfBounds, Bird.init, FLOOR, Member.penalize]

/-- C10 as amended: in both enumerate-with-pop scans, whenever the
member at the scan's current position satisfies the death condition, it
is removed and the member immediately after it is skipped — kept in the
cohort unexamined, whatever its own condition.  Hence the claim's
two-consecutive-dying-agents behaviour (first removed, second stays)
holds exactly when the first of the pair is itself examined, e.g. when
no member before it dies in the same pass; with three or more
consecutive dying members the scan alternates remove/skip instead.  The
pipe-scan half is stated for a pipe already marked passed, so the pass
flags thread through unchanged. -/
theorem claim_C10_removal_skip (imgH : Fin 3 → ℤ)
    (c : Pipe → Bird → Bool) (p : Pipe) :
    (∀ (xs : List Member) (a b : Member) (ys : List Member),
      (∀ m ∈ xs, outOfBounds imgH m.bird = false) →
      outOfBounds imgH a.bird = true →
      floorScan imgH (xs ++ a :: b :: ys) =
        (xs ++ b :: (floorScan imgH ys).1,
         a.penalize :: (floorScan imgH ys).2))
    ∧ (∀ (xs : List Member) (a b : Member) (ys : List Member) (add : Bool),
      (∀ m ∈ xs, c p m.bird = false) →
      c p a.bird = true →
      pipeBirdScan c p (xs ++ a :: b :: ys) true add =
        ⟨xs ++ b :: (pipeBirdScan c p ys true add).members,
         a.penalize :: (pipeBirdScan c p ys true add).dead,
         (pipeBirdScan c p ys true add).passed,
         (pipeBirdScan c p ys true add).addPipe⟩) := by
  constructor
  · intro xs
    induction xs with
    | nil =>
        intro a b ys _ ha
        simp [floorScan, ha]
    | cons x xs' ih =>
        intro a b ys hxs ha
        have hx : outOfBounds imgH x.bird = false := hxs x (by simp)
        rw [List.cons_append, floorScan.eq_def]
        have hrest : xs' ++ a :: b :: ys = (xs' ++ a :: b :: ys) := rfl
        cases hsh : xs' ++ a :: b :: ys with
        | nil => exact absurd hsh (by simp)
        | cons z zs =>
            rw [← hsh]
            simp only [hx, Bool.false_eq_true, if_false]
            rw [ih a b ys (fun m hm => hxs m (by simp [hm])) ha]
            simp
  · intro xs
    induction xs with
    | nil =>
        intro a b ys add _ ha
        simp [pipeBirdScan, ha]
    | cons x xs' ih =>
        intro a b ys add hxs ha
        have hx : (c p x.bird = true) = False := by simp [hxs x (by simp)]
        rw [List.cons_append, pipeBirdScan.eq_def]
        cases hsh : xs' ++ a :: b :: ys with
        | nil => exact absurd hsh (by simp)
        | cons z zs =>
            rw [← hsh]
            simp only [hx, if_false, Bool.not_true, Bool.false_and,
              Bool.or_false]
            rw [ih a b ys add (fun m hm => hxs m (by simp [hm])) ha]
            simp

/-- C10 witness for the amended behaviour: with a two-member cohort both
out of bounds, the scan removes the first (penalized) and keeps the
second unexamined. -/
theorem claim_C10_witness :
    floorScan (fun _ => 48)
        ([] ++ ⟨Bird.init 230 750, 100, fun _ => 0⟩ ::
          (⟨Bird.init 230 750, 300, fun _ => 0⟩ : Member) :: []) =
      ([] ++ (⟨Bird.init 230 750, 300, fun _ => 0⟩ : Member) ::
          (floorScan (fun _ => 48) []).1,
       (Member.penalize ⟨Bird.init 230 750, 100, fun _ => 0⟩)
          :: (floorScan (fun _ => 48) []).2) :=
  (claim_C10_removal_skip (fun _ => 48) (fun _ _ => false)
      { x := 0, height := 0, top := 0, bottom := 0, passed := false }).1
    [] ⟨Bird.init 230 750, 100, fun _ => 0⟩
    ⟨Bird.init 230 750, 300, fun _ => 0⟩ []
    (by simp)
    (by norm_num [outOfBounds, Bird.init, FLOOR])

/-- The decision step never changes a bird's horizontal position. -/
theorem decisionStep_bird_x (tp : Pipe) (m : Member) :
    (decisionStep tp m).bird.x = m.bird.x := by
  have hsplit : (decisionStep tp m).bird
      = (if m.net (m.bird.move.y, |m.bird.move.y - (tp.height : ℚ)|,
          |m.bird.move.y - (tp.bottom : ℚ)|) > 1/2
         then m.bird.move.jump else m.bird.move) := rfl
  rw [hsplit]
  split_ifs <;> rfl

/-- The decision step adds exactly the survival reward 0.1. -/
theorem decisionStep_fitness (tp : Pipe) (m : Member) :
    (decisionStep tp m).fitness = m.fitness + 1/10 := rfl

/-- C8: the should-spawn-next signal and the pass reward, over the pipe
loop of lines 389-412 followed by the reward block of lines 414-420,
for a cohort whose members share the horizontal position `bx`:
(i) the signal (`add_pipe`) is raised only when some pipe that was not
yet marked passed has, after this tick's move, fallen strictly behind
the members' position — i.e. only when an obstacle was just passed by a
member of this tick's cohort;
(ii) when it is raised, the `+5` block produces exactly the surviving
(still-live) members, each with exactly `+5` added to its fitness;
(iii) every member killed during the loop carries only the `-1` penalty
— no dead member receives the pass reward. -/
theorem claim_C8_spawn_signal (c : Pipe → Bird → Bool) (pipeW bx : ℤ)
    (pipes : List Pipe) (ms : List Member)
    (hx : ∀ m ∈ ms, m.bird.x = bx) :
    ((pipesLoop c pipeW pipes ms false).addPipe = true →
      ∃ p ∈ pipes, p.passed = false ∧ p.x - 5 < bx)
    ∧ (∀ m' ∈ passBonus (pipesLoop c pipeW pipes ms false).members,
        ∃ m ∈ ms, m' = { m with fitness := m.fitness + 5 })
    ∧ (∀ d ∈ (pipesLoop c pipeW pipes ms false).dead,
        ∃ m ∈ ms, d = m.penalize) := by
  refine ⟨?_, ?_, pipesLoop_dead_spec c pipeW pipes ms false⟩
  · intro h
    rcases pipesLoop_addPipe_imp c pipeW bx pipes ms false hx h with h1 | h2
    · exact absurd h1 (by simp)
    · exact h2
  · intro m' hm'
    rcases List.mem_map.mp hm' with ⟨m, hm, he⟩
    exact ⟨m,
      (pipesLoop_members_sublist c pipeW pipes ms false).subset hm, he.symm⟩

/-- C8 witness: one member at x = 230 with an unpassed pipe crossing
from 232 to 227 this tick. -/
theorem claim_C8_witness :
    (((pipesLoop (fun _ _ => false) 104
        [Pipe.create 640 232 100]
        [⟨Bird.init 230 350, 0, fun _ => 0⟩] false).addPipe = true →
      ∃ p ∈ [Pipe.create 640 232 100], p.passed = false ∧ p.x - 5 < 230)
    ∧ (∀ m' ∈ passBonus (pipesLoop (fun _ _ => false) 104
          [Pipe.create 640 232 100]
          [⟨Bird.init 230 350, 0, fun _ => 0⟩] false).members,
        ∃ m ∈ [(⟨Bird.init 230 350, 0, fun _ => 0⟩ : Member)],
          m' = { m with fitness := m.fitness + 5 })
    ∧ (∀ d ∈ (pipesLoop (fun _ _ => false) 104
          [Pipe.create 640 232 100]
          [⟨Bird.init 230 350, 0, fun _ => 0⟩] false).dead,
        ∃ m ∈ [(⟨Bird.init 230 350, 0, fun _ => 0⟩ : Member)],
          d = m.penalize)) :=
  claim_C8_spawn_signal (fun _ _ => false) 104 230
    [Pipe.create 640 232 100] [⟨Bird.init 230 350, 0, fun _ => 0⟩]
    (by simp [Bird.init])

/-- Filtering out the marked pairs of a map that never marks leaves the
mapped firsts. -/
theorem filter_unmarked_map (pipes : List Pipe) (f : Pipe → Pipe × Bool)
    (h : ∀ p ∈ pipes, (f p).2 = false) :
    ((pipes.map f).filter fun pb => !pb.2).map Prod.fst
      = pipes.map fun p => (f p).1 := by
  induction pipes with
  | nil => simp
  | cons p rest ih =>
      simp [h p (by simp), ih (fun q hq => h q (by simp [hq]))]

/-- C4: pass-then-spawn over one whole tick, on a collision-free tick
with a non-empty cohort sharing horizontal position `bx` and no pipe
scrolling off screen.  The resulting pipe list is exactly: every pipe
moved 5 left with its `passed` flag set iff it was already set or the
moved pipe fell strictly behind `bx` (so the flag flips exactly once, on
the crossing tick — not earlier, not later, and only once no matter how
many members are examined), followed by exactly one freshly spawned
`Pipe(600)` iff some pipe's flag newly flipped this tick (so exactly one
spawn even when several members pass, or several pipes flip, in the same
tick, and no spawn on a tick with no new pass). -/
theorem claim_C4_pass_then_spawn (c : Pipe → Bird → Bool)
    (imgH : Fin 3 → ℤ) (pipeW pipeImgH draw bx : ℤ) (s : GameState)
    (hc : ∀ q b, c q b = false)
    (hm : s.members ≠ []) (hp : s.pipes ≠ [])
    (hx : ∀ m ∈ s.members, m.bird.x = bx)
    (hrem : ∀ p ∈ s.pipes, ¬(p.x - 5 + pipeW < 0)) :
    (tick c imgH pipeW pipeImgH draw s).map GameState.pipes =
      some ((s.pipes.map fun p =>
          ({ x := p.x - 5, height := p.height, top := p.top,
             bottom := p.bottom,
             passed := p.passed || decide (p.x - 5 < bx) } : Pipe))
        ++ (if s.pipes.any (fun p => !p.passed && decide (p.x - 5 < bx))
            then [Pipe.create pipeImgH 600 draw] else [])) := by
  rcases s with ⟨ms, pipes, score, dead⟩
  cases ms with
  | nil => exact absurd rfl hm
  | cons m0 ms' =>
    cases pipes with
    | nil => exact absurd rfl hp
    | cons tp0 ps' =>
      simp only [tick]
      rw [pipesLoop_nocollide c pipeW bx hc (tp0 :: ps')
        ((m0 :: ms').map (decisionStep
          ((targetPipe pipeW m0.bird.x (tp0 :: ps')).getD tp0)))
        false (by simp)
        (by
          intro m hmm
          rcases List.mem_map.mp hmm with ⟨m1, hm1, he⟩
          rw [← he, decisionStep_bird_x]
          exact hx m1 hm1)]
      simp only [Option.map_some]
      rw [filter_unmarked_map _ _
        (by
          intro q hq
          simp only [List.mem_cons] at hq
          simp only [decide_eq_false_iff_not]
          exact hrem q (by simpa using hq))]
      simp only [Bool.false_or]
      split_ifs <;> simp

/-- C4 witness: one member at x = 230, one unpassed pipe moving from 232
to 227 this tick (so it newly crosses), nothing off screen and no
collisions: the tick yields that pipe moved and marked passed, plus
exactly one fresh spawn at 600. -/
theorem claim_C4_witness :
    (tick (fun _ _ => false) (fun _ => 48) 104 640 150
        { members := [⟨Bird.init 230 350, 0, fun _ => 0⟩],
          pipes := [Pipe.create 640 232 100], score := 0,
          dead := [] }).map GameState.pipes =
      some [{ x := 227, height := 100, top := -540, bottom := 300,
              passed := true },
            Pipe.create 640 600 150] := by
  have h := claim_C4_pass_then_spawn (fun _ _ => false) (fun _ => 48)
    104 640 150 230
    { members := [⟨Bird.init 230 350, 0, fun _ => 0⟩],
      pipes := [Pipe.create 640 232 100], score := 0, dead := [] }
    (fun _ _ => rfl) (by simp) (by simp)
    (by simp [Bird.init])
    (by
      intro p hp
      simp only [List.mem_singleton] at hp
      subst hp
      norm_num [Pipe.create])
  simpa [Pipe.create] using h

/-- Concrete one-member cohort for the C5 witness. -/
def memberEx : Member := ⟨Bird.init 230 350, 0, fun _ => 0⟩

/-- The per-tick transition used by the C5 example episode: the pipe
collides with any bird exactly when its x is 210, which the first pipe
(starting at 260) reaches on the tenth tick. -/
def tEx : GameState → Option GameState :=
  tick (fun q _ => decide (q.x = 210)) (fun _ => 48) 104 640 150

/-- Start state of the C5 example episode: one member with fitness 0 and
one unpassed pipe at x = 260 (passed on the seventh tick). -/
def s0Ex : GameState :=
  { members := [memberEx],
    pipes := [{ x := 260, height := 100, top := -540, bottom := 300,
                passed := false }],
    score := 0, dead := [] }

/-- C5: fitness accounting.
First conjunct — the claim's example episode, exactly: a member that
survives 10 ticks, passes one obstacle (tick 7) and then collides
(tick 10) ends with terminal fitness 10*0.1 + 5 - 1 = 5 exactly, the
cohort empty and the score 1.
Second conjunct — per-tick accounting in general: whenever a tick maps
`s` to `s'`, every surviving member's fitness is its old fitness plus
exactly the survival reward 0.1 plus exactly the pass reward 5 when the
score incremented this tick (and nothing else); every member in the dead
list is either a previously dead member (terminal fitness untouched) or
a member of this tick's cohort whose final fitness is its old fitness
plus the survival reward, plus the pass reward only if it died at the
floor check of a scoring tick (it was still live when the reward was
paid), minus exactly one death penalty 1.  A collision death never
collects the same tick's pass reward: the member is popped before the
reward block runs.  Summed over an episode this is exactly the claim's
accounting: 0.1 per tick alive at tick start, 5 per pass while live,
one -1 at death. -/
theorem claim_C5_fitness_accounting :
    (((((((((((tEx s0Ex).bind tEx).bind tEx).bind tEx).bind tEx).bind
        tEx).bind tEx).bind tEx).bind tEx).bind tEx).map
      (fun s => (s.members.length, s.dead.map Member.fitness, s.score))
      = some (0, [5], 1))
    ∧ ∀ (c : Pipe → Bird → Bool) (imgH : Fin 3 → ℤ)
        (pipeW pipeImgH draw : ℤ) (s s' : GameState),
        tick c imgH pipeW pipeImgH draw s = some s' →
        (∀ m' ∈ s'.members, ∃ m ∈ s.members,
           m'.fitness = m.fitness + 1/10
             + (if s'.score = s.score + 1 then (5:ℚ) else 0))
        ∧ (∀ d ∈ s'.dead, d ∈ s.dead ∨ ∃ m ∈ s.members,
            d.fitness = m.fitness + 1/10 - 1
            ∨ d.fitness = m.fitness + 1/10
                + (if s'.score = s.score + 1 then (5:ℚ) else 0) - 1) := by
  constructor
  · norm_num [tEx, s0Ex, memberEx, tick, targetPipe, decisionStep,
      Bird.init, Bird.move, Bird.jump, pipesLoop, pipeBirdScan, Pipe.move,
      Pipe.create, passBonus, floorScan, outOfBounds, FLOOR,
      Bird.drawUpdate, Member.penalize, Option.bind]
  · intro c imgH pipeW pipeImgH draw s s' h
    rcases s with ⟨ms, pipes, score, dead⟩
    cases ms with
    | nil => simp [tick] at h
    | cons m0 ms' =>
      cases pipes with
      | nil => simp [tick] at h
      | cons tp0 ps' =>
        simp only [tick] at h
        rw [Option.some_inj] at h
        subst h
        simp only []
        constructor
        · intro m' hm'
          simp only [List.mem_map] at hm'
          obtain ⟨k, hk, rfl⟩ := hm'
          have hk2 := (floorScan_members_sublist imgH _).subset hk
          cases haddp : (pipesLoop c pipeW (tp0 :: ps')
              ((m0 :: ms').map (decisionStep
                ((targetPipe pipeW m0.bird.x (tp0 :: ps')).getD tp0)))
              false).addPipe
          · rw [haddp] at hk2
            simp only [if_false, Bool.false_eq_true] at hk2
            have hk3 := (pipesLoop_members_sublist c pipeW (tp0 :: ps')
              _ false).subset hk2
            simp only [List.mem_map] at hk3
            obtain ⟨m, hm, rfl⟩ := hk3
            refine ⟨m, hm, ?_⟩
            rw [if_neg (by simp [haddp])]
            simp [decisionStep_fitness]
          · rw [haddp] at hk2
            simp only [if_true] at hk2
            simp only [passBonus, List.mem_map] at hk2
            obtain ⟨m2, hm2, rfl⟩ := hk2
            have hk3 := (pipesLoop_members_sublist c pipeW (tp0 :: ps')
              _ false).subset hm2
            simp only [List.mem_map] at hk3
            obtain ⟨m, hm, rfl⟩ := hk3
            refine ⟨m, hm, ?_⟩
            rw [if_pos (by simp [haddp])]
            simp [decisionStep_fitness]
        · intro d hd
          simp only [List.append_assoc, List.mem_append] at hd
          rcases hd with hd | hd | hd
          · exact Or.inl hd
          · right
            obtain ⟨m1, hm1, rfl⟩ := pipesLoop_dead_spec c pipeW (tp0 :: ps')
              _ false d hd
            simp only [List.mem_map] at hm1
            obtain ⟨m, hm, rfl⟩ := hm1
            exact ⟨m, hm, Or.inl (by simp [Member.penalize, decisionStep_fitness])⟩
          · right
            obtain ⟨k, hk, rfl⟩ := floorScan_dead_spec imgH _ d hd
            cases haddp : (pipesLoop c pipeW (tp0 :: ps')
                ((m0 :: ms').map (decisionStep
                  ((targetPipe pipeW m0.bird.x (tp0 :: ps')).getD tp0)))
                false).addPipe
            · rw [haddp] at hk
              simp only [if_false, Bool.false_eq_true] at hk
              have hk3 := (pipesLoop_members_sublist c pipeW (tp0 :: ps')
                _ false).subset hk
              simp only [List.mem_map] at hk3
              obtain ⟨m, hm, rfl⟩ := hk3
              exact ⟨m, hm, Or.inl
                (by simp [Member.penalize, decisionStep_fitness])⟩
            · rw [haddp] at hk
              simp only [if_true] at hk
              simp only [passBonus, List.mem_map] at hk
              obtain ⟨m2, hm2, rfl⟩ := hk
              have hk3 := (pipesLoop_members_sublist c pipeW (tp0 :: ps')
                _ false).subset hm2
              simp only [List.mem_map] at hk3
              obtain ⟨m, hm, rfl⟩ := hk3
              refine ⟨m, hm, Or.inr ?_⟩
              rw [if_pos (by simp [haddp])]
              simp [Member.penalize, decisionStep_fitness]

/-- Concrete pre-tick state for the C5 witness: one member, one unpassed
pipe at x = 232. -/
def stateEx : GameState :=
  { members := [memberEx], pipes := [Pipe.create 640 232 100],
    score := 0, dead := [] }

/-- The C5 witness member's bird after its physics tick. -/
def movedBirdEx : Bird :=
  { x := 230, y := 703/2, tilt := 25, tick_count := 1, vel := 0,
    height := 350, img_count := 0, img := 0 }

/-- The C5 witness member after colliding: 0 + 0.1 - 1 = -0.9. -/
def deadEx : Member := ⟨movedBirdEx, -9/10, fun _ => 0⟩

/-- Concrete post-tick state for the C5 witness: the member collided
with the pipe (which moved to 227 and was simultaneously passed, so the
score incremented and a fresh pipe spawned), and its terminal fitness is
0.1 - 1 = -0.9 with no pass reward. -/
def stateEx2 : GameState :=
  { members := [],
    pipes := [{ x := 227, height := 100, top := -540, bottom := 300,
                passed := true },
              Pipe.create 640 600 150],
    score := 1, dead := [deadEx] }

/-- C5 witness: the fitness-accounting theorem applied to the concrete
one-member collision tick `stateEx → stateEx2`. -/
theorem claim_C5_witness :
    (∀ m' ∈ stateEx2.members, ∃ m ∈ stateEx.members,
       m'.fitness = m.fitness + 1/10
         + (if stateEx2.score = stateEx.score + 1 then (5:ℚ) else 0))
    ∧ (∀ d ∈ stateEx2.dead, d ∈ stateEx.dead ∨ ∃ m ∈ stateEx.members,
        d.fitness = m.fitness + 1/10 - 1
        ∨ d.fitness = m.fitness + 1/10
            + (if stateEx2.score = stateEx.score + 1 then (5:ℚ) else 0)
            - 1) :=
  claim_C5_fitness_accounting.2 (fun q _ => decide (q.x = 227))
    (fun _ => 48) 104 640 150 stateEx stateEx2
    (by
      norm_num [tick, stateEx, stateEx2, memberEx, deadEx, movedBirdEx,
        targetPipe, decisionStep, Bird.init, Bird.move, Bird.jump,
        pipesLoop, pipeBirdScan, Pipe.move, Pipe.create, passBonus,
        floorScan, outOfBounds, FLOOR, Bird.drawUpdate, Member.penalize])

end Flappy
